import Mathlib

/-!
Verification of `libre/apps/data_drivers/query.py` (a miniature LQL query
executor) against its natural-language specification.

The embedding below translates the source file shallowly:

* Python record payloads (nested dicts / lists / scalars) are the inductive
  `Value`; dicts are modelled as association chains (`dcons`) and lists as
  cons chains (`lcons`) so that all functions are structurally recursive and
  kernel-computable.
* Python string operations used by the parser (`split`, `replace`, `strip`,
  `upper`, slicing `[1:-1]`, `startswith`, substring membership) are
  re-implemented over `List Char` with explicit fuel so that every proof can
  evaluate them definitionally.
* Stateful code becomes explicit state passing; fallible code returns
  `Except`.  `Http400` exceptions become `Err.http400`; uncaught Python
  `KeyError` / `TypeError` faults become `Err.keyError` / `Err.typeError`.
* Modules of the repository that are not part of the provided source
  (`literals.py`, `filters.py`, `utils.py`, `aggregates.py`, `jsonq.py`, the
  ORM sibling-dataset resolver, and shapely geometry introspection) are
  modelled from the spec; each such definition carries a doc comment starting
  with `Modelled from the spec:`.
-/

/-! ## Python string primitives (over `List Char`) -/

/-- Checks that `pat` is an initial run of `s` (Python `s.startswith(pat)` on
char lists). -/
def leadsWith : List Char → List Char → Bool
  | [], _ => true
  | _ :: _, [] => false
  | a :: pas, b :: bs => a == b && leadsWith pas bs

/-- Core of Python `str.split(sep)` for a non-empty separator, fuelled so the
definition is structural.  `acc` holds the current chunk reversed. -/
def splitOnCore (sep : List Char) : Nat → List Char → List Char → List (List Char)
  | 0, s, acc => [acc.reverse ++ s]
  | _ + 1, [], acc => [acc.reverse]
  | fuel + 1, c :: rest, acc =>
    if leadsWith sep (c :: rest) then
      acc.reverse :: splitOnCore sep fuel ((c :: rest).drop sep.length) []
    else
      splitOnCore sep fuel rest (c :: acc)

/-- Python `s.split(sep)` for a non-empty literal separator. -/
def pySplitOn (s sep : String) : List String :=
  (splitOnCore sep.data (s.data.length + 1) s.data []).map String.mk

/-- Core of Python `str.replace(pat, rep)`, fuelled. -/
def replaceCore (pat rep : List Char) : Nat → List Char → List Char
  | 0, s => s
  | _ + 1, [] => []
  | fuel + 1, c :: rest =>
    if leadsWith pat (c :: rest) then
      rep ++ replaceCore pat rep fuel ((c :: rest).drop pat.length)
    else
      c :: replaceCore pat rep fuel rest

/-- Python `s.replace(pat, rep)` for a non-empty pattern. -/
def pyReplace (s pat rep : String) : String :=
  String.mk (replaceCore pat.data rep.data (s.data.length + 1) s.data)

/-- Python `s.startswith(pat)`. -/
def pyStartsWith (s pat : String) : Bool :=
  leadsWith pat.data s.data

/-- ASCII upper-casing of one character (Python 2 `str.upper` is ASCII-only). -/
def chUp (c : Char) : Char :=
  if 'a' ≤ c && c ≤ 'z' then Char.ofNat (c.toNat - 32) else c

/-- Python `s.upper()` (ASCII). -/
def pyUpper (s : String) : String :=
  String.mk (s.data.map chUp)

/-- Whitespace recognised by Python 2 `str.strip()`. -/
def isWsp (c : Char) : Bool :=
  c == ' ' || c == Char.ofNat 9 || c == Char.ofNat 10 || c == Char.ofNat 13 ||
  c == Char.ofNat 11 || c == Char.ofNat 12

/-- Python `s.strip()`. -/
def pyTrim (s : String) : String :=
  String.mk (((s.data.dropWhile isWsp).reverse.dropWhile isWsp).reverse)

/-- Python slicing `s[1:-1]`: drops the first and last character. -/
def pySlice1m1 (s : String) : String :=
  if s.data.length ≤ 1 then "" else String.mk ((s.data.drop 1).dropLast)

/-! ## Data model -/

/-- A Python value as it occurs in record payloads and parsed parameters.
Dicts are association chains (`dcons key val rest`), lists are cons chains
(`lcons hd tl`); this de-nesting keeps every recursion structural. -/
inductive Value where
  | vnone
  | vbool (b : Bool)
  | vint (n : Int)
  | vstr (s : String)
  | lnil
  | lcons (hd tl : Value)
  | dnil
  | dcons (key : String) (val rest : Value)
deriving DecidableEq

/-- Builds a dict `Value` from an association list (for writing examples). -/
def Value.d : List (String × Value) → Value
  | [] => .dnil
  | (k, v) :: rest => .dcons k v (Value.d rest)

/-- Python exception kinds that the row evaluator distinguishes
(`except KeyError` versus `except (AttributeError, TypeError)`). -/
inductive PyExc where
  | keyErr
  | typeErr
deriving DecidableEq

/-- Failures escaping `Query.execute`.  `http400` is the user-input-classified
`Http400`; `keyError` / `typeError` are uncaught Python exceptions (internal
faults), which the source can raise from `sorted(..., key=itemgetter(group))`
and `x[group]` in `process_groups` / `process_aggregates`. -/
inductive Err where
  | http400 (msg : String)
  | keyError (key : String)
  | typeError
deriving DecidableEq

/-- Python `value[part]` on a payload `Value`: dict lookup (missing key raises
`KeyError`), anything non-dict raises `TypeError` for a string subscript. -/
def pyGetItem : Value → String → Except PyExc Value
  | .dcons k v rest, key => if k == key then .ok v else pyGetItem rest key
  | .dnil, _ => .error .keyErr
  | _, _ => .error .typeErr

/-- Total field access used where the source has already established the key
exists (`lambda x: x[group]` after a successful sort). -/
def getField (v : Value) (k : String) : Value :=
  match pyGetItem v k with
  | .ok w => w
  | .error _ => .vnone

/-- Numeric reading of a value, for the Sum aggregate model. -/
def intOf : Value → Int
  | .vint n => n
  | .vbool true => 1
  | _ => 0

/-- Rank used for cross-constructor comparisons when sorting group keys. -/
def Value.rank : Value → Nat
  | .vnone => 0
  | .vbool _ => 1
  | .vint _ => 2
  | .vstr _ => 3
  | .lnil => 4
  | .lcons _ _ => 4
  | .dnil => 5
  | .dcons _ _ _ => 5

/-- Total Boolean comparison used as the sort key order in `process_groups`.
Python 2 orders mixed types by interpreter-defined rules; no claim depends on
the exact cross-type order, only on this being total so the stable sort is
well-defined.  Within ints / strings / bools it is the usual order. -/
def Value.le (a b : Value) : Bool :=
  match a, b with
  | .vint x, .vint y => x ≤ y
  | .vstr x, .vstr y => x ≤ y
  | .vbool x, .vbool y => !x || y
  | _, _ => a.rank ≤ b.rank

/-! ## Literals and external registries -/

/-- Modelled from the spec: `literals.LQL_DELIMITER` (literals.py is not under
src/).  The spec's parameter-grammar table uses `_` as the directive
delimiter (`_join`, `_fields`, `_group_by`, `_aggregate`). -/
def LQL_DELIMITER : String := "_"

/-- Modelled from the spec: `literals.DOUBLE_DELIMITER` (literals.py is not
under src/).  The spec's table writes plain operator filters as
`field__op=value`. -/
def DOUBLE_DELIMITER : String := "__"

/-- Join type for combining filter match-sets (`JOIN_TYPE_AND` /
`JOIN_TYPE_OR` of literals.py, modelled from the spec: enum {AND, OR},
default AND). -/
inductive JOIN_TYPE where
  | AND
  | OR
deriving DecidableEq

/-- Identifier of a registered filter operator class. -/
inductive FilterId where
  | equals
  | lt
  | gt
deriving DecidableEq

/-- Modelled from the spec: the `FILTER_NAMES` registry of filters.py (not
under src/): a fixed registry resolving operator names; `equals` is the
implicit operator of plain filters, and a small set of named comparison
operators exists.  Unknown names resolve to `none`. -/
def FILTER_NAMES : String → Option FilterId
  | "equals" => some .equals
  | "lt" => some .lt
  | "gt" => some .gt
  | _ => none

/-- Modelled from the spec: predicate semantics of the filter classes in
filters.py (not under src/): each compiled filter evaluates the resolved row
value against the comparison value; `equals` is equality, `lt` / `gt` compare
numbers. -/
def FilterId.evaluate : FilterId → Value → Value → Bool
  | .equals, row, v => row == v
  | .lt, row, v =>
    match row, v with
    | .vint x, .vint y => x < y
    | _, _ => false
  | .gt, row, v =>
    match row, v with
    | .vint x, .vint y => x > y
    | _, _ => false

/-! ## Parameter parsing -/

/-- A parsed plain-filter spec (`{'field': ..., 'filter_name': ..., 'value': ...}`). -/
structure FilterSpec where
  field : String
  filter_name : String
  value : Value
deriving DecidableEq

/-- A compiled filter: the spec plus the resolved operator
(`post_filter['operation']`). -/
structure CompiledFilter where
  field : String
  operation : FilterId
  value : Value
deriving DecidableEq

/-- Aggregate function object (`Count` / `Sum` of aggregates.py). -/
inductive AggFun where
  | count (args : List String)
  | sum (args : List String)
deriving DecidableEq

/-- Modelled from the spec: `Count.execute` / `Sum.execute` (aggregates.py is
not under src/).  Count ignores its operand field list and returns the number
of rows; Sum returns the numeric sum of its first operand field over the rows
(the spec flags multi-operand Sum as ambiguous; no claim depends on it). -/
def AggFun.execute : AggFun → List Value → Value
  | .count _, rows => .vint rows.length
  | .sum args, rows =>
    .vint (rows.foldl (fun acc r => acc + intOf (getField r ((args.headD "")))) 0)

/-- A parsed aggregate spec (`{'name': ..., 'function': ...}`). -/
structure AggSpec where
  name : String
  function : AggFun
deriving DecidableEq

/-- Modelled from the spec: `utils.parse_value` (utils.py is not under src/).
Raw filter values are coerced to boolean / number / string / list; the parser
catches `IndexError` from it and raises the malformed-query error, and per
the spec a coercion failure fails the whole query with that error, so every
failure of this model is of the caught kind.  The empty raw value fails
(indexing its first character). -/
def parse_value (s : String) : Except Unit Value
  := if s.data.isEmpty then .error ()
     else if s = "true" then .ok (.vbool true)
     else if s = "false" then .ok (.vbool false)
     else if s.data.all Char.isDigit then
       .ok (.vint (Int.ofNat (s.data.foldl (fun n c => n * 10 + (c.toNat - 48)) 0)))
     else if pyStartsWith s "[" then
       .ok ((pySplitOn (pySlice1m1 s) ",").foldr (fun e acc => Value.lcons (.vstr e) acc) .lnil)
     else .ok (.vstr s)

/-- Parser state: the accumulators mutated by the loop of `parse_parameters`. -/
structure ParseState where
  filters : List FilterSpec
  field_query : Option (List String)
  join_type : JOIN_TYPE
  aggregates : List AggSpec
  groups : List String

/-- One element of the `_aggregate` directive: `alias:Function(args)`
(query.py lines 202-218).  Exactly one `:` is required; `Count(` / `Sum(`
prefixes are recognised, anything else is silently dropped. -/
def parse_aggregate_element (element : String) : Except Err (List AggSpec) :=
  match pySplitOn element ":" with
  | [name, aggregate_string] =>
    if pyStartsWith aggregate_string "Count(" then
      .ok [⟨pySlice1m1 (pyTrim name),
            .count (pySplitOn (pyReplace (pyReplace aggregate_string "Count(" "") ")" "") ",")⟩]
    else if pyStartsWith aggregate_string "Sum(" then
      .ok [⟨pySlice1m1 (pyTrim name),
            .sum (pySplitOn (pyReplace (pyReplace aggregate_string "Sum(" "") ")" "") ",")⟩]
    else .ok []
  | _ => .error (.http400 "Specify an alias for the aggregate")

/-- The loop over the comma-split elements of the `_aggregate` value. -/
def parse_aggregates_loop : List String → Except Err (List AggSpec)
  | [] => .ok []
  | e :: rest =>
    match parse_aggregate_element e with
    | .error err => .error err
    | .ok a =>
      match parse_aggregates_loop rest with
      | .error err => .error err
      | .ok more => .ok (a ++ more)

/-- Processing of one `(parameter, value)` item of the parameter map
(query.py lines 167-218). -/
def parse_step (st : ParseState) (parameter value : String) : Except Err ParseState :=
  if !pyStartsWith parameter LQL_DELIMITER then
    match parse_value value with
    | .error _ => .error (.http400 "Malformed query")
    | .ok v =>
      match pySplitOn parameter DOUBLE_DELIMITER with
      | [_] => .ok { st with filters := st.filters ++ [⟨parameter, "equals", v⟩] }
      | [field, filter_name] =>
        .ok { st with filters := st.filters ++ [⟨field, filter_name, v⟩] }
      | _ => .error (.http400 "Only one filter per field is supported")
  else
    if parameter = LQL_DELIMITER ++ "join" then
      if pyUpper value = "OR" then .ok { st with join_type := .OR } else .ok st
    else if parameter = LQL_DELIMITER ++ "fields" then
      .ok { st with field_query := some (pySplitOn value ",") }
    else if parameter = LQL_DELIMITER ++ "group_by" then
      .ok { st with groups := pySplitOn value "," }
    else if parameter = LQL_DELIMITER ++ "aggregate" then
      match parse_aggregates_loop (pySplitOn (pySlice1m1 (pyTrim value)) ",") with
      | .error e => .error e
      | .ok ags => .ok { st with aggregates := st.aggregates ++ ags }
    else .ok st

/-- The loop of `parse_parameters` over the parameter map's items.  The map is
modelled as an association list in its (Python-dict) iteration order. -/
def parse_loop : ParseState → List (String × String) → Except Err ParseState
  | st, [] => .ok st
  | st, (p, v) :: rest =>
    match parse_step st p v with
    | .error e => .error e
    | .ok st2 => parse_loop st2 rest

/-- `parse_parameters` (query.py lines 159-220): produces
`(filters, field_query, join_type, aggregates, groups)`. -/
def parse_parameters (parameters : List (String × String)) :
    Except Err (List FilterSpec × Option (List String) × JOIN_TYPE × List AggSpec × List String) :=
  match parse_loop ⟨[], none, .AND, [], []⟩ parameters with
  | .error e => .error e
  | .ok st => .ok (st.filters, st.field_query, st.join_type, st.aggregates, st.groups)

/-- `get_filter_functions_map` (query.py lines 223-232): resolves each
`filter_name` through `FILTER_NAMES`, failing on unknown operators. -/
def get_filter_functions_map : List FilterSpec → Except Err (List CompiledFilter)
  | [] => .ok []
  | f :: fs =>
    match FILTER_NAMES f.filter_name with
    | none => .error (.http400 ("Unknown filter: " ++ f.filter_name))
    | some op =>
      match get_filter_functions_map fs with
      | .error e => .error e
      | .ok more => .ok (⟨f.field, op, f.value⟩ :: more)

/-! ## Query, row evaluation and the pipeline -/

/-- A dataset item; `row` is its underlying payload (`item.row`). -/
structure Record where
  row : Value

/-- The query object.  `data` is the ordered dataset and `limit` the row
limit of `__init__`.  `slug` is the dataset's own identifying slug
(`self.slug`).  `siblings` models from the spec the sibling-dataset resolver
(`self.klass.objects.get_subclass(slug=...)`, external to src/): a slug
resolves iff it is registered here. -/
structure Query where
  data : List Record
  limit : Nat
  slug : String
  siblings : List String

/-- Modelled from the spec: shapely geometry introspection (external): the
perimeter / length of a geometric payload.  No claim depends on its value. -/
def geometry_length (v : Value) : Value := .dcons "geometry_length_of" v .dnil

/-- Modelled from the spec: shapely geometry introspection (external): the
area of a geometric payload.  No claim depends on its value. -/
def geometry_area (v : Value) : Value := .dcons "geometry_area_of" v .dnil

/-- Modelled from the spec: shapely geometry introspection (external): the
geometry-kind label of a geometric payload.  No claim depends on its value. -/
def geometry_type (v : Value) : Value := .dcons "geometry_type_of" v .dnil

/-- Early exits from the per-row field-resolution loop: an `Http400`-style
error, or the cross-reference redirect (`return source.get_all(...)`,
query.py line 65) which aborts the whole query. -/
inductive EarlyExit where
  | err (e : Err)
  | redirect (slug : String)
deriving DecidableEq

/-- Field-path resolution for one record (query.py lines 43-70): walk the
dot-separated parts left to right from the payload.  `_length` / `_area` /
`_type` substitute geometry introspection; otherwise the part is looked up as
a key.  A `KeyError` on the first part is a possible sibling-slug reference
(redirect, or unknown-source error) unless the part equals the dataset's own
slug, in which case it is silently swallowed and the value left unchanged; a
`KeyError` later, or a `TypeError` anywhere, is the invalid-element error. -/
def resolveFrom (q : Query) (field : String) : Nat → List String → Value → Except EarlyExit Value
  | _, [], value => .ok value
  | index, part :: rest, value =>
    if part = "_length" then resolveFrom q field (index + 1) rest (geometry_length value)
    else if part = "_area" then resolveFrom q field (index + 1) rest (geometry_area value)
    else if part = "_type" then resolveFrom q field (index + 1) rest (geometry_type value)
    else
      match pyGetItem value part with
      | .ok v2 => resolveFrom q field (index + 1) rest v2
      | .error .typeErr => .error (.err (.http400 ("Invalid element: " ++ field)))
      | .error .keyErr =>
        if index == 0 then
          if part = q.slug then resolveFrom q field (index + 1) rest value
          else if q.siblings.contains part then .error (.redirect part)
          else .error (.err (.http400 ("Unknown source: " ++ part)))
        else .error (.err (.http400 ("Invalid element: " ++ field)))

/-- The scan of one compiled filter over the dataset (query.py lines 41-74),
collecting the `row_id`s whose resolved value satisfies the predicate. -/
def scan_go (q : Query) (cf : CompiledFilter) : Nat → List Record → Except EarlyExit (List Nat)
  | _, [] => .ok []
  | row_id, item :: rest =>
    match resolveFrom q cf.field 0 (pySplitOn cf.field ".") item.row with
    | .error e => .error e
    | .ok value =>
      match scan_go q cf (row_id + 1) rest with
      | .error e => .error e
      | .ok l => .ok (if cf.operation.evaluate value cf.value then row_id :: l else l)

/-- Per-filter match list (`filter_results` for one `post_filter`). -/
def filter_scan (q : Query) (cf : CompiledFilter) : Except EarlyExit (List Nat) :=
  scan_go q cf 0 q.data

/-- Ordered duplicate-free insertion: the canonical representation chosen for
Python `set` objects over `int` row positions. -/
def setInsert (n : Nat) : List Nat → List Nat
  | [] => [n]
  | m :: rest =>
    if n < m then n :: m :: rest
    else if n = m then m :: rest
    else m :: setInsert n rest

/-- Python `set(lst)` on a list of positions, in canonical form. -/
def listToSet (l : List Nat) : List Nat := l.foldr setInsert []

/-- Python `a &= set(b)` on canonical sets. -/
def setInter (a b : List Nat) : List Nat := a.filter (fun n => b.contains n)

/-- Python `a |= set(b)` on canonical sets. -/
def setUnion (a b : List Nat) : List Nat := a.foldr setInsert b

/-- The combine loop of `execute` (query.py lines 36-82): scan each filter and
fold its match-set into `query_results`.  Faithfully to the source, the
accumulator is re-seeded (`query_results = set(filter_results)`) whenever it
is *empty* — Python's `if query_results:` is false for the empty set, not
only on the first iteration. -/
def combine_loop (q : Query) (join_type : JOIN_TYPE) :
    List Nat → List CompiledFilter → Except EarlyExit (List Nat)
  | query_results, [] => .ok query_results
  | query_results, cf :: rest =>
    match filter_scan q cf with
    | .error e => .error e
    | .ok filter_results =>
      combine_loop q join_type
        (if query_results.isEmpty then listToSet filter_results
         else
           match join_type with
           | .AND => setInter query_results (listToSet filter_results)
           | .OR => setUnion (listToSet filter_results) query_results)
        rest

/-- Retrieval of one record payload by position.  Positions produced by
`enumerate` are always in range; Python would raise `IndexError` otherwise. -/
def Query.fetch (q : Query) (i : Nat) : Value :=
  match q.data.get? i with
  | some r => r.row
  | none => .vnone

/-- `get_data` (query.py lines 143-156).  With filters, a surviving set of
size one bypasses the limit (the `itemgetter`-returns-a-value special case,
line 150 — note no `[0:self.limit]` there); the empty set gives no rows; any
larger set is truncated to `limit`.  Without filters the first `limit`
records are returned.  The source iterates `list(query_results)` over a
CPython `set`; that iteration order is interpreter-defined (hash-table
layout), and this model picks ascending position order as its concrete,
arbitrary choice. -/
def Query.get_data (q : Query) (filters : List FilterSpec) (query_results : List Nat) :
    List Value :=
  if !filters.isEmpty then
    if query_results.length = 1 then query_results.map q.fetch
    else if query_results.length = 0 then []
    else (query_results.map q.fetch).take q.limit
  else (q.data.take q.limit).map Record.row

/-! ## Grouping -/

/-- Stable ordered insertion for the model of Python's stable `sorted`. -/
def orderedInsertB (le : Value → Value → Bool) (x : Value) : List Value → List Value
  | [] => [x]
  | y :: ys => if le x y then x :: y :: ys else y :: orderedInsertB le x ys

/-- Stable insertion sort.  Python's `sorted` is a stable sort, and any two
stable sorts for the same total preorder agree, so the source's timsort is
modelled by insertion sort. -/
def insertionSortB (le : Value → Value → Bool) : List Value → List Value
  | [] => []
  | x :: xs => orderedInsertB le x (insertionSortB le xs)

/-- Merging one row into the run list: the cons step of
`itertools.groupby`-style adjacent grouping by key. -/
def runsCons (k : Value → Value) (x : Value) :
    List (Value × List Value) → List (Value × List Value)
  | [] => [(k x, [x])]
  | (ky, run) :: rest =>
    if k x == ky then (k x, x :: run) :: rest else (k x, [x]) :: (ky, run) :: rest

/-- Adjacent-run grouping by key (`itertools.groupby(sorted_data, lambda x:
x[group])`, materialised as `result[group][key] = list(group_data)`). -/
def runsBy (k : Value → Value) : List Value → List (Value × List Value)
  | [] => []
  | x :: xs => runsCons k x (runsBy k xs)

/-- The key pass of `sorted(backup, key=itemgetter(group))`: CPython computes
every key before comparing, so a row without the group key raises an uncaught
`KeyError`, and a non-mapping row an uncaught `TypeError`. -/
def extract_keys (g : String) : List Value → Except Err (List Value)
  | [] => .ok []
  | r :: rest =>
    match pyGetItem r g with
    | .error .keyErr => .error (.keyError g)
    | .error .typeErr => .error .typeError
    | .ok k =>
      match extract_keys g rest with
      | .error e => .error e
      | .ok ks => .ok (k :: ks)

/-- Grouping of the row list by one group field (query.py lines 130-137):
sort stably by the key, then group adjacent runs. -/
def group_one (rows : List Value) (g : String) : Except Err (List (Value × List Value)) :=
  match extract_keys g rows with
  | .error e => .error e
  | .ok _ =>
    .ok (runsBy (fun r => getField r g)
          (insertionSortB (fun a b => Value.le (getField a g) (getField b g)) rows))

/-- The loop of `process_groups` over the requested group fields; each field
groups the full row list independently (the generator is `tee`-ed). -/
def groups_loop (rows : List Value) : List String → Except Err (List (String × List (Value × List Value)))
  | [] => .ok []
  | g :: rest =>
    match group_one rows g with
    | .error e => .error e
    | .ok m =>
      match groups_loop rows rest with
      | .error e => .error e
      | .ok more => .ok ((g, m) :: more)

/-- Intermediate result after `process_groups`: either the plain row sequence
(no grouping requested) or the per-group-field mapping. -/
inductive Stage1 where
  | rows (l : List Value)
  | grouped (m : List (String × List (Value × List Value)))
deriving DecidableEq

/-- `process_groups` (query.py lines 127-141). -/
def process_groups (rows : List Value) (groups : List String) : Except Err Stage1 :=
  if groups.isEmpty then .ok (.rows rows)
  else
    match groups_loop rows groups with
    | .error e => .error e
    | .ok m => .ok (.grouped m)

/-! ## Aggregation, projection, execute -/

/-- The final result of a query: rows, a grouped mapping, aggregate mappings,
or the cross-reference redirect (`return source.get_all(parameters=...)`,
carrying the sibling slug and the entire original parameter map). -/
inductive QueryResult where
  | rows (l : List Value)
  | grouped (m : List (String × List (Value × List Value)))
  | flatAgg (m : List (String × Value))
  | groupedAgg (m : List (String × List (Value × List (String × Value))))
  | redirected (slug : String) (parameters : List (String × String))
deriving DecidableEq

/-- One group's aggregate values: alias → value over the key's row subset. -/
def agg_of_rows (aggregates : List AggSpec) (rws : List Value) : List (String × Value) :=
  aggregates.map (fun a => (a.name, a.function.execute rws))

/-- The grouped-aggregation loop (query.py lines 116-121): for each requested
group field, `data[group]` is looked up (a missing key would raise an
uncaught `KeyError`) and every aggregate is computed per key value. -/
def agg_groups_loop (m : List (String × List (Value × List Value))) (aggregates : List AggSpec) :
    List String → Except Err (List (String × List (Value × List (String × Value))))
  | [] => .ok []
  | g :: rest =>
    match m.lookup g with
    | none => .error (.keyError g)
    | some sub =>
      match agg_groups_loop m aggregates rest with
      | .error e => .error e
      | .ok more => .ok ((g, sub.map (fun kv => (kv.1, agg_of_rows aggregates kv.2))) :: more)

/-- `process_aggregates` (query.py lines 105-125).  The two `typeError`
branches are unreachable from `execute` (the shape of `Stage1` matches
whether `groups` is empty); they stand for Python's duck-typed behaviour on a
mismatched argument, which the pipeline never exercises. -/
def process_aggregates (data : Stage1) (groups : List String) (aggregates : List AggSpec) :
    Except Err QueryResult :=
  if aggregates.isEmpty then
    match data with
    | .rows l => .ok (.rows l)
    | .grouped m => .ok (.grouped m)
  else if groups.isEmpty then
    match data with
    | .rows l => .ok (.flatAgg (agg_of_rows aggregates l))
    | .grouped _ => .error .typeError
  else
    match data with
    | .grouped m =>
      match agg_groups_loop m aggregates groups with
      | .error e => .error e
      | .ok res => .ok (.groupedAgg res)
    | .rows _ => .error .typeError

/-- Modelled from the spec: the JSONq field-projection service (jsonq.py is
not under src/): given the comma-split field list, it projects the result
structure; per the spec its only failure mode is a value error.  Modelled as
the total projection keeping the listed keys of mapping rows; no claim
exercises it. -/
def keepKeys (ks : List String) : Value → Value
  | .dcons k val rest => if ks.contains k then .dcons k val (keepKeys ks rest) else keepKeys ks rest
  | v => v

/-- Modelled from the spec: `JSONq(data).query(field_query, do_filter=True)`. -/
def jsonq_query (fq : List String) : QueryResult → Except String QueryResult
  | .rows l => .ok (.rows (l.map (keepKeys fq)))
  | other => .ok other

/-- `process_field_filtering` (query.py lines 94-102): delegate to JSONq,
surfacing its value errors as `Http400`. -/
def process_field_filtering (data : QueryResult) (field_query : Option (List String)) :
    Except Err QueryResult :=
  match field_query with
  | none => .ok data
  | some fq =>
    match jsonq_query fq data with
    | .ok r => .ok r
    | .error msg => .error (.http400 ("Filter query error; " ++ msg))

/-- `Query.execute` (query.py lines 26-92): parse the parameters, compile the
filters, scan and combine the match-sets, retrieve the surviving rows, group,
aggregate, and project.  A redirect raised during row evaluation returns the
sibling dataset's result for the entire original parameter map. -/
def Query.execute (q : Query) (parameters : List (String × String)) : Except Err QueryResult :=
  match parse_parameters parameters with
  | .error e => .error e
  | .ok (filters, field_query, join_type, aggregates, groups) =>
    match get_filter_functions_map filters with
    | .error e => .error e
    | .ok filters_function_map =>
      match combine_loop q join_type [] filters_function_map with
      | .error (.err e) => .error e
      | .error (.redirect s) => .ok (.redirected s parameters)
      | .ok query_results =>
        match process_groups (q.get_data filters query_results) groups with
        | .error e => .error e
        | .ok st =>
          match process_aggregates st groups aggregates with
          | .error e => .error e
          | .ok res => process_field_filtering res field_query

/-! ## Concrete example queries used by individual claims -/

/-- Two-record dataset for exercising the AND-combine step: record 0 is
`{x: 1, y: 1}`, record 1 is `{x: 1, y: 2}`. -/
def qAndBug : Query :=
  ⟨[⟨Value.d [("x", .vint 1), ("y", .vint 1)]⟩,
    ⟨Value.d [("x", .vint 1), ("y", .vint 2)]⟩], 10, "data", []⟩

/-- One-record dataset `{a: 1}` with row limit 0, for the limit boundary. -/
def qLimitZero : Query :=
  ⟨[⟨Value.d [("a", .vint 1)]⟩], 0, "data", []⟩

/-- The spec's three-record dataset `{id:1,v:5}, {id:2,v:7}, {id:3,v:5}`,
limit 10. -/
def qScenario : Query :=
  ⟨[⟨Value.d [("id", .vint 1), ("v", .vint 5)]⟩,
    ⟨Value.d [("id", .vint 2), ("v", .vint 7)]⟩,
    ⟨Value.d [("id", .vint 3), ("v", .vint 5)]⟩], 10, "data", []⟩

/-- One-record dataset `{id: 1}` whose rows lack the field `v`. -/
def qNoV : Query :=
  ⟨[⟨Value.d [("id", .vint 1)]⟩], 10, "data", []⟩

/-- Dataset under slug `main` with a sibling dataset registered as `other`. -/
def qMain : Query :=
  ⟨[⟨Value.d [("a", .vint 1)]⟩], 10, "main", ["other"]⟩

/-! ## Claim theorems -/

/-- C1: the combine step does not implement AND-as-intersection.  On
`qAndBug` with the two equals filters `x=9` (match-set `∅`) and `y=2`
(match-set `{1}`) joined with the default AND, the per-filter match-sets have
empty intersection, yet `execute` returns record 1: because Python's
`if query_results:` is false for the empty set, the empty running set is
re-seeded from the second filter's matches instead of being intersected. -/
theorem and_combine_restarts_after_empty :
    qAndBug.execute [("x", "9"), ("y", "2")] =
      .ok (.rows [Value.dcons "x" (.vint 1) (.dcons "y" (.vint 2) .dnil)]) ∧
    filter_scan qAndBug ⟨"x", .equals, .vint 9⟩ = .ok [] ∧
    filter_scan qAndBug ⟨"y", .equals, .vint 2⟩ = .ok [1] :=
  ⟨rfl, rfl, rfl⟩

/-- C3: the size-one special case of `get_data` ignores the limit.  On
`qLimitZero` (limit 0) the filter `a=1` leaves exactly one surviving
position, and `execute` returns that one record — a sequence of length 1
where the claim requires length at most `limit = 0`. -/
theorem limit_zero_single_survivor_returned :
    qLimitZero.execute [("a", "1")] = .ok (.rows [Value.dcons "a" (.vint 1) .dnil]) ∧
    qLimitZero.limit = 0 :=
  ⟨rfl, rfl⟩

/-- C4, counterexample: on the spec's three-record dataset,
`_aggregate=(t:Count(*))` with no grouping yields the aggregate keyed by the
empty string, not by `t`: the source applies `name.strip()[1:-1]` to the
alias, which strips its first and last characters. -/
theorem aggregate_alias_not_t :
    qScenario.execute [("_aggregate", "(t:Count(*))")] = .ok (.flatAgg [("", .vint 3)]) ∧
    qScenario.execute [("_aggregate", "(t:Count(*))")] ≠ .ok (.flatAgg [("t", .vint 3)]) := by
  refine ⟨rfl, fun h => ?_⟩
  rw [show qScenario.execute [("_aggregate", "(t:Count(*))")] = .ok (.flatAgg [("", .vint 3)])
    from rfl] at h
  simp at h

/-- C4, amended: the aggregate result is keyed by the alias with its first
and last characters removed — the empty string for the one-character alias
`t` — so the flat result is `{"": 3}` and the grouped result is
`{v: {5: {"": 2}, 7: {"": 1}}}`. -/
theorem aggregate_alias_stripped :
    qScenario.execute [("_aggregate", "(t:Count(*))")] = .ok (.flatAgg [("", .vint 3)]) ∧
    qScenario.execute [("_aggregate", "(t:Count(*))"), ("_group_by", "v")] =
      .ok (.groupedAgg [("v", [(.vint 5, [("", .vint 2)]), (.vint 7, [("", .vint 1)])])]) :=
  ⟨rfl, rfl⟩

/-- C5, counterexample: two distinct parameters `age__lt` and `age__gt` name
the same field with different operators, and parsing accepts both, producing
two filter specs for field `age` — it does not reject the query.  (Only a
single parameter name containing more than one separator is rejected.) -/
theorem same_field_two_operators_accepted :
    parse_parameters [("age__lt", "5"), ("age__gt", "1")] =
      .ok ([⟨"age", "lt", .vint 5⟩, ⟨"age", "gt", .vint 1⟩], none, .AND, [], []) :=
  rfl

/-- C6, counterexample: grouping by a field absent from a retrieved row
escapes as an uncaught `KeyError` (an internal fault), not as a
user-input-classified `Http400`: `sorted(backup, key=itemgetter(group))` in
`process_groups` has no handler. -/
theorem group_by_missing_field_keyerror :
    qNoV.execute [("_group_by", "v")] = .error (.keyError "v") ∧
    ∀ m, Err.keyError "v" ≠ Err.http400 m :=
  ⟨rfl, fun _ h => Err.noConfusion h⟩

/-- C10: when the first path segment equals the dataset's own slug and its
key lookup fails with `KeyError`, the failure is silently swallowed — no
error, no redirect — and resolution continues at the next segment with the
payload value unchanged; in particular a single-segment path resolves to the
whole payload, which is what the filter predicate is then evaluated on. -/
theorem slug_segment_keyerror_swallowed (q : Query) (field : String) (rest : List String)
    (v : Value)
    (hkey : pyGetItem v q.slug = .error .keyErr)
    (hL : q.slug ≠ "_length") (hA : q.slug ≠ "_area") (hT : q.slug ≠ "_type") :
    resolveFrom q field 0 (q.slug :: rest) v = resolveFrom q field 1 rest v ∧
    resolveFrom q field 0 [q.slug] v = .ok v := by
  constructor
  · rw [resolveFrom, if_neg hL, if_neg hA, if_neg hT, hkey]
    simp
  · rw [resolveFrom, if_neg hL, if_neg hA, if_neg hT, hkey]
    simp [resolveFrom]

/-- Witness for C10 at a concrete dataset: slug `ds`, payload `{a: 1}`. -/
theorem slug_segment_keyerror_swallowed_witness :
    resolveFrom ⟨[], 0, "ds", []⟩ "ds" 0 ["ds"] (Value.d [("a", .vint 1)]) =
      resolveFrom ⟨[], 0, "ds", []⟩ "ds" 1 [] (Value.d [("a", .vint 1)]) ∧
    resolveFrom ⟨[], 0, "ds", []⟩ "ds" 0 ["ds"] (Value.d [("a", .vint 1)]) =
      .ok (Value.d [("a", .vint 1)]) :=
  slug_segment_keyerror_swallowed ⟨[], 0, "ds", []⟩ "ds" [] (Value.d [("a", .vint 1)])
    rfl (by decide) (by decide) (by decide)

theorem cross_reference_redirect (q : Query) (params : List (String × String))
    (f : FilterSpec) (fs : List FilterSpec) (fq : Option (List String)) (jt : JOIN_TYPE)
    (ag : List AggSpec) (gs : List String)
    (op : FilterId) (more : List CompiledFilter)
    (r : Record) (rs : List Record) (seg : String) (segs : List String)
    (hp : parse_parameters params = .ok (f :: fs, fq, jt, ag, gs))
    (hop : FILTER_NAMES f.filter_name = some op)
    (hrest : get_filter_functions_map fs = .ok more)
    (hd : q.data = r :: rs)
    (hsplit : pySplitOn f.field "." = seg :: segs)
    (hL : seg ≠ "_length") (hA : seg ≠ "_area") (hT : seg ≠ "_type")
    (hkey : pyGetItem r.row seg = .error .keyErr)
    (hslug : seg ≠ q.slug) :
    q.execute params =
      if q.siblings.contains seg then .ok (.redirected seg params)
      else .error (.http400 ("Unknown source: " ++ seg)) := by
  have hres : resolveFrom q f.field 0 (seg :: segs) r.row =
      (if q.siblings.contains seg then .error (.redirect seg)
       else .error (.err (.http400 ("Unknown source: " ++ seg)))) := by
    rw [resolveFrom, if_neg hL, if_neg hA, if_neg hT, hkey]
    simp [hslug]
  have hscan : filter_scan q ⟨f.field, op, f.value⟩ =
      (if q.siblings.contains seg then .error (.redirect seg)
       else .error (.err (.http400 ("Unknown source: " ++ seg)))) := by
    rw [filter_scan, hd, scan_go]
    simp only [hsplit, hres]
    by_cases hmem : seg ∈ q.siblings <;> simp [hmem]
  rw [Query.execute, hp]
  simp only [get_filter_functions_map, hop, hrest, combine_loop, hscan]
  by_cases hmem : seg ∈ q.siblings <;> simp [hmem]

/-- Witness for C7 on `qMain`: filter field `other.x` fails lookup on the
record, `other` is a registered sibling, and the whole query is redirected
with the original parameter map. -/
theorem cross_reference_redirect_witness :
    qMain.execute [("other.x", "1")] = .ok (.redirected "other" [("other.x", "1")]) := by
  have h := cross_reference_redirect qMain [("other.x", "1")]
    ⟨"other.x", "equals", .vint 1⟩ [] none .AND [] [] .equals []
    ⟨Value.d [("a", .vint 1)]⟩ [] "other" ["x"]
    rfl rfl rfl rfl rfl (by decide) (by decide) (by decide) rfl (by decide)
  simpa using h

/-- Helper: the join type is `OR` after a step that did not touch it exactly
when it already was `OR` (the step's parameter is not the join directive). -/
theorem join_iff_of_preserved (st st2 : ParseState) (p v : String)
    (hjt : st2.join_type = st.join_type) (hne : p ≠ LQL_DELIMITER ++ "join") :
    st2.join_type = .OR ↔
      (st.join_type = .OR ∨ (p = LQL_DELIMITER ++ "join" ∧ pyUpper v = "OR")) := by
  rw [hjt]
  constructor
  · exact Or.inl
  · rintro (h | ⟨hp, _⟩)
    · exact h
    · exact absurd hp hne

/-- Helper: effect of one parser step on the join type: it becomes `OR`
exactly if it already was, or the step is the join directive with an
upper-cased value equal to `OR`. -/
theorem parse_step_join (st : ParseState) (p v : String) (st2 : ParseState)
    (h : parse_step st p v = .ok st2) :
    st2.join_type = .OR ↔
      (st.join_type = .OR ∨ (p = LQL_DELIMITER ++ "join" ∧ pyUpper v = "OR")) := by
  unfold parse_step at h
  split at h
  · -- plain-filter branch: p does not start with the delimiter
    rename_i hstart
    have hne : p ≠ LQL_DELIMITER ++ "join" := by
      intro he
      rw [he] at hstart
      exact absurd hstart (by decide)
    split at h
    · exact absurd h (by simp)
    · split at h
      · injection h with h2
        exact join_iff_of_preserved st st2 p v (by rw [← h2]) hne
      · injection h with h2
        exact join_iff_of_preserved st st2 p v (by rw [← h2]) hne
      · exact absurd h (by simp)
  · -- directive branch
    split at h
    · -- the join directive itself
      rename_i hp
      split at h
      · rename_i hup
        injection h with h2
        rw [← h2]
        simp [hp, hup]
      · rename_i hup
        injection h with h2
        rw [← h2]
        constructor
        · exact Or.inl
        · rintro (hh | ⟨_, hu⟩)
          · exact hh
          · exact absurd hu hup
    · split at h
      · rename_i hnj _
        injection h with h2
        exact join_iff_of_preserved st st2 p v (by rw [← h2]) hnj
      · split at h
        · rename_i hnj _ _
          injection h with h2
          exact join_iff_of_preserved st st2 p v (by rw [← h2]) hnj
        · split at h
          · rename_i hnj _ _ _
            split at h
            · exact absurd h (by simp)
            · injection h with h2
              exact join_iff_of_preserved st st2 p v (by rw [← h2]) hnj
          · rename_i hnj _ _ _
            injection h with h2
            exact join_iff_of_preserved st st2 p v (by rw [← h2]) hnj

/-- Helper: the join type after the whole parse loop. -/
theorem parse_loop_join (params : List (String × String)) :
    ∀ st st2 : ParseState, parse_loop st params = .ok st2 →
      (st2.join_type = .OR ↔
        (st.join_type = .OR ∨
          ∃ v, (LQL_DELIMITER ++ "join", v) ∈ params ∧ pyUpper v = "OR")) := by
  induction params with
  | nil =>
    intro st st2 h
    injection h with h2
    rw [← h2]
    simp
  | cons pv rest ih =>
    intro st st2 h
    obtain ⟨p, v⟩ := pv
    rw [parse_loop] at h
    split at h
    · exact absurd h (by simp)
    · rename_i stm hstep
      have hstep2 := parse_step_join st p v stm hstep
      have hrest := ih stm st2 h
      rw [hrest, hstep2]
      constructor
      · rintro ((hh | ⟨hp, hu⟩) | ⟨w, hw, hu⟩)
        · exact Or.inl hh
        · exact Or.inr ⟨v, by simp [hp], hu⟩
        · exact Or.inr ⟨w, by simp [hw], hu⟩
      · rintro (hh | ⟨w, hw, hu⟩)
        · exact Or.inl (Or.inl hh)
        · rcases List.mem_cons.mp hw with heq | hmem
          · injection heq with he1 he2
            exact Or.inl (Or.inr ⟨he1.symm, he2 ▸ hu⟩)
          · exact Or.inr ⟨w, hmem, hu⟩

/-- C8: the parsed join type is `OR` exactly when the parameter map contains
the join directive with a value whose (ASCII, as in Python 2 `str.upper`)
upper-casing is `OR`; any other value of the directive, and an absent
directive, leave it `AND` (`JOIN_TYPE` has only the two constructors), and
no value of the directive makes parsing fail. -/
theorem join_directive_or_iff (params : List (String × String))
    (fl : List FilterSpec) (fq : Option (List String)) (jt : JOIN_TYPE)
    (ag : List AggSpec) (gs : List String)
    (h : parse_parameters params = .ok (fl, fq, jt, ag, gs)) :
    jt = .OR ↔ ∃ v, (LQL_DELIMITER ++ "join", v) ∈ params ∧ pyUpper v = "OR" := by
  unfold parse_parameters at h
  split at h
  · exact absurd h (by simp)
  · rename_i st hloop
    injection h with h2
    have hj : jt = st.join_type := by
      have := congrArg (fun t => t.2.2.1) h2
      simpa using this.symm
    rw [hj]
    have := parse_loop_join params ⟨[], none, .AND, [], []⟩ st hloop
    rw [this]
    simp

/-- Witness for C8: the single directive `_join=oR` parses successfully and
sets the join type to `OR`. -/
theorem join_directive_or_iff_witness :
    (JOIN_TYPE.OR = .OR ↔
      ∃ v, (LQL_DELIMITER ++ "join", v) ∈ [("_join", "oR")] ∧ pyUpper v = "OR") :=
  join_directive_or_iff [("_join", "oR")] [] none .OR [] [] rfl

/-- Helper: ordered insertion is a permutation of consing. -/
theorem orderedInsertB_perm (le : Value → Value → Bool) (x : Value) :
    ∀ l : List Value, (orderedInsertB le x l).Perm (x :: l) := by
  intro l
  induction l with
  | nil => simp [orderedInsertB]
  | cons y ys ih =>
    rw [orderedInsertB]
    split
    · exact List.Perm.refl _
    · exact (ih.cons y).trans (List.Perm.swap x y ys)

/-- Helper: the stable sort is a permutation of its input. -/
theorem insertionSortB_perm (le : Value → Value → Bool) :
    ∀ l : List Value, (insertionSortB le l).Perm l := by
  intro l
  induction l with
  | nil => exact List.Perm.refl _
  | cons x xs ih =>
    rw [insertionSortB]
    exact (orderedInsertB_perm le x (insertionSortB le xs)).trans (ih.cons x)

/-- Helper: consing one row into the run list flattens to consing the row. -/
theorem runsCons_flat (k : Value → Value) (x : Value) (rs : List (Value × List Value)) :
    ((runsCons k x rs).map Prod.snd).flatten = x :: (rs.map Prod.snd).flatten := by
  cases rs with
  | nil => simp [runsCons]
  | cons hd tl =>
    obtain ⟨ky, run⟩ := hd
    rw [runsCons]
    split <;> simp

/-- Helper: flattening the adjacent-run grouping recovers the input list. -/
theorem runsBy_flat (k : Value → Value) :
    ∀ l : List Value, ((runsBy k l).map Prod.snd).flatten = l := by
  intro l
  induction l with
  | nil => simp [runsBy]
  | cons x xs ih => rw [runsBy, runsCons_flat, ih]

/-- Helper: a successful `group_one` is the runs-of-stable-sort grouping. -/
theorem group_one_ok (rows : List Value) (g : String) (sub : List (Value × List Value))
    (h : group_one rows g = .ok sub) :
    sub = runsBy (fun r => getField r g)
            (insertionSortB (fun a b => Value.le (getField a g) (getField b g)) rows) := by
  unfold group_one at h
  split at h
  · exact absurd h (by simp)
  · injection h with h2
    exact h2.symm

/-- Helper: every entry of a successful `groups_loop` comes from `group_one`. -/
theorem groups_loop_mem (rows : List Value) :
    ∀ (gsl : List String) (m : List (String × List (Value × List Value)))
      (g : String) (sub : List (Value × List Value)),
      groups_loop rows gsl = .ok m → (g, sub) ∈ m → group_one rows g = .ok sub := by
  intro gsl
  induction gsl with
  | nil =>
    intro m g sub h hmem
    injection h with h2
    rw [← h2] at hmem
    simp at hmem
  | cons g0 rest ih =>
    intro m g sub h hmem
    rw [groups_loop] at h
    split at h
    · exact absurd h (by simp)
    · rename_i m0 h0
      split at h
      · exact absurd h (by simp)
      · rename_i more hmore
        injection h with h2
        rw [← h2] at hmem
        rcases List.mem_cons.mp hmem with heq | hmem2
        · injection heq with he1 he2
          rw [he1, he2]
          exact h0
        · exact ih more g sub hmore hmem2

/-- C9: round-trip of grouping.  If `process_groups` succeeds, then for every
group field `g` in the produced mapping, concatenating the row lists of all
key values recovers exactly the multiset of input rows (a permutation — no
row lost or duplicated); moreover each grouping is the canonical
runs-of-stable-sort of the input, so the order within each key's list is
deterministic (stable: dataset order within equal keys). -/
theorem grouping_roundtrip (rows : List Value) (gsl : List String)
    (m : List (String × List (Value × List Value))) (g : String)
    (sub : List (Value × List Value))
    (h : process_groups rows gsl = .ok (.grouped m)) (hmem : (g, sub) ∈ m) :
    ((sub.map Prod.snd).flatten).Perm rows ∧
    sub = runsBy (fun r => getField r g)
            (insertionSortB (fun a b => Value.le (getField a g) (getField b g)) rows) := by
  unfold process_groups at h
  split at h
  · injection h with h2
    exact absurd h2 (by simp)
  · split at h
    · exact absurd h (by simp)
    · rename_i m0 hloop
      injection h with h2
      injection h2 with h3
      rw [← h3] at hmem
      have hone := groups_loop_mem rows gsl m0 g sub hloop hmem
      have hsub := group_one_ok rows g sub hone
      refine ⟨?_, hsub⟩
      rw [hsub, runsBy_flat]
      exact insertionSortB_perm _ rows

/-- Witness for C9 on the spec's dataset grouped by `v`: the groups
`{5: [rec1, rec3], 7: [rec2]}` flatten to a permutation of the three rows. -/
theorem grouping_roundtrip_witness :
    ((([((Value.vint 5 : Value),
         [Value.d [("id", .vint 1), ("v", .vint 5)], Value.d [("id", .vint 3), ("v", .vint 5)]]),
        ((Value.vint 7 : Value),
         [Value.d [("id", .vint 2), ("v", .vint 7)]])].map Prod.snd).flatten).Perm
      [Value.d [("id", .vint 1), ("v", .vint 5)],
       Value.d [("id", .vint 2), ("v", .vint 7)],
       Value.d [("id", .vint 3), ("v", .vint 5)]]) ∧
    [((Value.vint 5 : Value),
      [Value.d [("id", .vint 1), ("v", .vint 5)], Value.d [("id", .vint 3), ("v", .vint 5)]]),
     ((Value.vint 7 : Value),
      [Value.d [("id", .vint 2), ("v", .vint 7)]])] =
      runsBy (fun r => getField r "v")
        (insertionSortB (fun a b => Value.le (getField a "v") (getField b "v"))
          [Value.d [("id", .vint 1), ("v", .vint 5)],
           Value.d [("id", .vint 2), ("v", .vint 7)],
           Value.d [("id", .vint 3), ("v", .vint 5)]]) :=
  grouping_roundtrip
    [Value.d [("id", .vint 1), ("v", .vint 5)],
     Value.d [("id", .vint 2), ("v", .vint 7)],
     Value.d [("id", .vint 3), ("v", .vint 5)]] ["v"] _ "v" _ rfl (List.Mem.head _)

/-- C5, amended: two distinct parameters naming the same field with different
operators are both accepted: parsing yields one filter spec per parameter —
two specs for the shared field — with no error (only a single name containing
more than one separator is rejected). -/
theorem same_field_two_operators_filter_list (p1 p2 f op1 op2 v1 v2 : String)
    (w1 w2 : Value)
    (h1 : pyStartsWith p1 LQL_DELIMITER = false)
    (h2 : pyStartsWith p2 LQL_DELIMITER = false)
    (hs1 : pySplitOn p1 DOUBLE_DELIMITER = [f, op1])
    (hs2 : pySplitOn p2 DOUBLE_DELIMITER = [f, op2])
    (hv1 : parse_value v1 = .ok w1) (hv2 : parse_value v2 = .ok w2) :
    parse_parameters [(p1, v1), (p2, v2)] =
      .ok ([⟨f, op1, w1⟩, ⟨f, op2, w2⟩], none, .AND, [], []) := by
  unfold parse_parameters parse_loop parse_step
  rw [h1, hv1, hs1]
  simp only [Bool.not_false, if_true]
  unfold parse_loop parse_step
  rw [h2, hv2, hs2]
  simp [parse_loop]

/-- Witness for C5's amended claim at `height__lt=5`, `height__gt=2`. -/
theorem same_field_two_operators_filter_list_witness :
    parse_parameters [("height__lt", "5"), ("height__gt", "2")] =
      .ok ([⟨"height", "lt", .vint 5⟩, ⟨"height", "gt", .vint 2⟩], none, .AND, [], []) :=
  same_field_two_operators_filter_list "height__lt" "height__gt" "height" "lt" "gt"
    "5" "2" (.vint 5) (.vint 2) rfl rfl rfl rfl rfl rfl

/-- Helper: an aggregate element only fails with `Http400`. -/
theorem parse_aggregate_element_error (e0 : String) (e : Err)
    (h : parse_aggregate_element e0 = .error e) : ∃ m, e = .http400 m := by
  unfold parse_aggregate_element at h
  split at h
  · split at h
    · exact absurd h (by simp)
    · split at h
      · exact absurd h (by simp)
      · exact absurd h (by simp)
  · injection h with h2
    exact ⟨_, h2.symm⟩

/-- Helper: the aggregate-element loop only fails with `Http400`. -/
theorem parse_aggregates_loop_error (l : List String) :
    ∀ e : Err, parse_aggregates_loop l = .error e → ∃ m, e = .http400 m := by
  induction l with
  | nil => intro e h; exact absurd h (by simp [parse_aggregates_loop])
  | cons x rest ih =>
    intro e h
    rw [parse_aggregates_loop] at h
    split at h
    · rename_i he
      injection h with h2
      exact h2 ▸ parse_aggregate_element_error x _ he
    · split at h
      · rename_i hr
        injection h with h2
        exact h2 ▸ ih _ hr
      · exact absurd h (by simp)

/-- Helper: one parser step only fails with `Http400`. -/
theorem parse_step_error (st : ParseState) (p v : String) (e : Err)
    (h : parse_step st p v = .error e) : ∃ m, e = .http400 m := by
  unfold parse_step at h
  split at h
  · split at h
    · injection h with h2
      exact ⟨_, h2.symm⟩
    · split at h
      · exact absurd h (by simp)
      · exact absurd h (by simp)
      · injection h with h2
        exact ⟨_, h2.symm⟩
  · split at h
    · split at h
      · exact absurd h (by simp)
      · exact absurd h (by simp)
    · split at h
      · exact absurd h (by simp)
      · split at h
        · exact absurd h (by simp)
        · split at h
          · split at h
            · rename_i ha
              injection h with h2
              exact h2 ▸ parse_aggregates_loop_error _ _ ha
            · exact absurd h (by simp)
          · exact absurd h (by simp)

/-- Helper: the parse loop only fails with `Http400`. -/
theorem parse_loop_error (params : List (String × String)) :
    ∀ (st : ParseState) (e : Err), parse_loop st params = .error e → ∃ m, e = .http400 m := by
  induction params with
  | nil => intro st e h; exact absurd h (by simp [parse_loop])
  | cons pv rest ih =>
    intro st e h
    obtain ⟨p, v⟩ := pv
    rw [parse_loop] at h
    split at h
    · rename_i hs
      injection h with h2
      exact h2 ▸ parse_step_error st p v _ hs
    · exact ih _ e h

/-- Helper: `parse_parameters` only fails with `Http400`. -/
theorem parse_parameters_error (params : List (String × String)) (e : Err)
    (h : parse_parameters params = .error e) : ∃ m, e = .http400 m := by
  unfold parse_parameters at h
  split at h
  · rename_i hl
    injection h with h2
    exact h2 ▸ parse_loop_error params _ _ hl
  · exact absurd h (by simp)

/-- Helper: filter compilation only fails with `Http400`. -/
theorem get_filter_functions_map_error (fl : List FilterSpec) :
    ∀ e : Err, get_filter_functions_map fl = .error e → ∃ m, e = .http400 m := by
  induction fl with
  | nil => intro e h; exact absurd h (by simp [get_filter_functions_map])
  | cons f fs ih =>
    intro e h
    rw [get_filter_functions_map] at h
    split at h
    · injection h with h2
      exact ⟨_, h2.symm⟩
    · split at h
      · rename_i hr
        injection h with h2
        exact h2 ▸ ih _ hr
      · exact absurd h (by simp)

/-- Helper: field resolution only raises `Http400`-classified errors (its
other early exit is the redirect, not an error). -/
theorem resolveFrom_error (q : Query) (field : String) :
    ∀ (parts : List String) (i : Nat) (v : Value) (e : Err),
      resolveFrom q field i parts v = .error (.err e) → ∃ m, e = .http400 m := by
  intro parts
  induction parts with
  | nil => intro i v e h; exact absurd h (by simp [resolveFrom])
  | cons part rest ih =>
    intro i v e h
    rw [resolveFrom] at h
    split at h
    · exact ih _ _ e h
    · split at h
      · exact ih _ _ e h
      · split at h
        · exact ih _ _ e h
        · split at h
          · exact ih _ _ e h
          · injection h with h2
            injection h2 with h3
            exact ⟨_, h3.symm⟩
          · split at h
            · split at h
              · exact ih _ _ e h
              · split at h
                · exact absurd h (by simp)
                · injection h with h2
                  injection h2 with h3
                  exact ⟨_, h3.symm⟩
            · injection h with h2
              injection h2 with h3
              exact ⟨_, h3.symm⟩

/-- Helper: the per-filter scan only raises `Http400`-classified errors. -/
theorem scan_go_error (q : Query) (cf : CompiledFilter) :
    ∀ (l : List Record) (i : Nat) (e : Err),
      scan_go q cf i l = .error (.err e) → ∃ m, e = .http400 m := by
  intro l
  induction l with
  | nil => intro i e h; exact absurd h (by simp [scan_go])
  | cons r rs ih =>
    intro i e h
    rw [scan_go] at h
    split at h
    · rename_i hr
      injection h with h2
      exact resolveFrom_error q cf.field _ _ _ e (h2 ▸ hr)
    · split at h
      · rename_i hr
        injection h with h2
        exact ih _ e (h2 ▸ hr)
      · exact absurd h (by simp)

/-- Helper: the combine loop only raises `Http400`-classified errors. -/
theorem combine_loop_error (q : Query) (jt : JOIN_TYPE) :
    ∀ (cfs : List CompiledFilter) (acc : List Nat) (e : Err),
      combine_loop q jt acc cfs = .error (.err e) → ∃ m, e = .http400 m := by
  intro cfs
  induction cfs with
  | nil => intro acc e h; exact absurd h (by simp [combine_loop])
  | cons cf rest ih =>
    intro acc e h
    rw [combine_loop] at h
    split at h
    · rename_i hs
      injection h with h2
      exact scan_go_error q cf q.data 0 e (by rw [← filter_scan]; rw [hs, h2])
    · exact ih _ e h

/-- Helper: the sort-key pass fails only with the group field's `KeyError` or
with `TypeError`. -/
theorem extract_keys_error (g : String) :
    ∀ (rows : List Value) (e : Err), extract_keys g rows = .error e →
      e = .keyError g ∨ e = .typeError := by
  intro rows
  induction rows with
  | nil => intro e h; exact absurd h (by simp [extract_keys])
  | cons r rest ih =>
    intro e h
    rw [extract_keys] at h
    split at h
    · injection h with h2
      exact Or.inl h2.symm
    · injection h with h2
      exact Or.inr h2.symm
    · split at h
      · rename_i hr
        injection h with h2
        exact ih e (h2 ▸ hr)
      · exact absurd h (by simp)

/-- Helper: grouping by one field fails only with that field's `KeyError` or
with `TypeError`. -/
theorem group_one_error (rows : List Value) (g : String) (e : Err)
    (h : group_one rows g = .error e) : e = .keyError g ∨ e = .typeError := by
  unfold group_one at h
  split at h
  · rename_i hk
    injection h with h2
    exact extract_keys_error g rows e (h2 ▸ hk)
  · exact absurd h (by simp)

/-- Helper: the grouping loop fails only with a requested group field's
`KeyError` or with `TypeError`. -/
theorem groups_loop_error (rows : List Value) :
    ∀ (gsl : List String) (e : Err), groups_loop rows gsl = .error e →
      (∃ g, g ∈ gsl ∧ e = .keyError g) ∨ e = .typeError := by
  intro gsl
  induction gsl with
  | nil => intro e h; exact absurd h (by simp [groups_loop])
  | cons g rest ih =>
    intro e h
    rw [groups_loop] at h
    split at h
    · rename_i hg
      injection h with h2
      rcases group_one_error rows g e (h2 ▸ hg) with hk | ht
      · exact Or.inl ⟨g, by simp, hk⟩
      · exact Or.inr ht
    · split at h
      · rename_i hr
        injection h with h2
        rcases ih e (h2 ▸ hr) with ⟨g2, hg2, hk⟩ | ht
        · exact Or.inl ⟨g2, by simp [hg2], hk⟩
        · exact Or.inr ht
      · exact absurd h (by simp)

/-- Helper: `process_groups` fails only when grouping was requested, and then
only with a requested field's `KeyError` or with `TypeError`. -/
theorem process_groups_error (rows : List Value) (gsl : List String) (e : Err)
    (h : process_groups rows gsl = .error e) :
    ¬gsl = [] ∧ ((∃ g, g ∈ gsl ∧ e = .keyError g) ∨ e = .typeError) := by
  unfold process_groups at h
  split at h
  · exact absurd h (by simp)
  · rename_i hne
    refine ⟨by simpa using hne, ?_⟩
    split at h
    · rename_i hl
      injection h with h2
      exact groups_loop_error rows gsl e (h2 ▸ hl)
    · exact absurd h (by simp)

/-- Helper: with no grouping requested, `process_groups` passes rows through. -/
theorem process_groups_nil (rows : List Value) :
    process_groups rows [] = .ok (.rows rows) := rfl

/-- Helper: the grouped-aggregation loop fails only with a requested group
field's `KeyError`. -/
theorem agg_groups_loop_error (m : List (String × List (Value × List Value)))
    (ags : List AggSpec) :
    ∀ (gsl : List String) (e : Err), agg_groups_loop m ags gsl = .error e →
      ∃ g, g ∈ gsl ∧ e = .keyError g := by
  intro gsl
  induction gsl with
  | nil => intro e h; exact absurd h (by simp [agg_groups_loop])
  | cons g rest ih =>
    intro e h
    rw [agg_groups_loop] at h
    split at h
    · injection h with h2
      exact ⟨g, by simp, h2.symm⟩
    · split at h
      · rename_i hr
        injection h with h2
        obtain ⟨g2, hg2, hk⟩ := ih e (h2 ▸ hr)
        exact ⟨g2, by simp [hg2], hk⟩
      · exact absurd h (by simp)

/-- Helper: given its `Stage1` input actually came from `process_groups` on
the same group list, `process_aggregates` fails only when grouping was
requested, and then only with a `KeyError` on a requested group field or a
`TypeError`. -/
theorem process_aggregates_error (rows : List Value) (st : Stage1) (gsl : List String)
    (ags : List AggSpec) (e : Err)
    (hst : process_groups rows gsl = .ok st)
    (h : process_aggregates st gsl ags = .error e) :
    ¬gsl = [] ∧ ((∃ g, g ∈ gsl ∧ e = .keyError g) ∨ e = .typeError) := by
  cases gsl with
  | nil =>
    rw [process_groups_nil] at hst
    injection hst with hst2
    rw [← hst2] at h
    unfold process_aggregates at h
    split at h
    · exact absurd h (by simp)
    · split at h
      · exact absurd h (by simp)
      · rename_i hf
        exact absurd rfl hf
  | cons g0 grest =>
    refine ⟨by simp, ?_⟩
    unfold process_aggregates at h
    split at h
    · split at h
      · exact absurd h (by simp)
      · exact absurd h (by simp)
    · split at h
      · rename_i ht
        exact absurd ht (by simp)
      · split at h
        · split at h
          · rename_i hl
            injection h with h2
            obtain ⟨g2, hg2, hk⟩ := agg_groups_loop_error _ ags _ e (h2 ▸ hl)
            exact Or.inl ⟨g2, hg2, hk⟩
          · exact absurd h (by simp)
        · injection h with h2
          exact Or.inr h2.symm

/-- Helper: the projection adapter only fails with `Http400`. -/
theorem process_field_filtering_error (data : QueryResult) (fq : Option (List String))
    (e : Err) (h : process_field_filtering data fq = .error e) : ∃ m, e = .http400 m := by
  unfold process_field_filtering at h
  split at h
  · exact absurd h (by simp)
  · split at h
    · exact absurd h (by simp)
    · injection h with h2
      exact ⟨_, h2.symm⟩

/-- C6, amended: every failure of `execute` is a user-input-classified
(`Http400`) error, except that when grouping is requested the grouping /
grouped-aggregation stages can raise an unclassified fault: a `KeyError` on a
requested group field (a row lacking the field) or a `TypeError` (a
non-mapping row).  No other stage escapes unclassified. -/
theorem execute_error_classified (q : Query) (params : List (String × String)) (e : Err)
    (h : q.execute params = .error e) :
    (∃ m, e = .http400 m) ∨
    (∃ fl fq jt ag gs, parse_parameters params = .ok (fl, fq, jt, ag, gs) ∧ ¬gs = [] ∧
      ((∃ g, g ∈ gs ∧ e = .keyError g) ∨ e = .typeError)) := by
  unfold Query.execute at h
  split at h
  · rename_i e1 hp
    injection h with h2
    exact Or.inl (h2 ▸ parse_parameters_error params e1 hp)
  · rename_i out fl fq jt ag gs hp
    split at h
    · rename_i e1 hc
      injection h with h2
      exact Or.inl (h2 ▸ get_filter_functions_map_error fl e1 hc)
    · rename_i cfs hc
      split at h
      · rename_i e1 hcl
        injection h with h2
        exact Or.inl (h2 ▸ combine_loop_error q jt cfs [] e1 hcl)
      · exact absurd h (by simp)
      · rename_i qres hcl
        split at h
        · rename_i e1 hpg
          injection h with h2
          obtain ⟨hne, hsh⟩ := process_groups_error _ gs e1 hpg
          exact Or.inr ⟨fl, fq, jt, ag, gs, hp, hne, h2 ▸ hsh⟩
        · rename_i st hpg
          split at h
          · rename_i e1 hpa
            injection h with h2
            obtain ⟨hne, hsh⟩ := process_aggregates_error _ st gs ag e1 hpg hpa
            exact Or.inr ⟨fl, fq, jt, ag, gs, hp, hne, h2 ▸ hsh⟩
          · rename_i res hpa
            exact Or.inl (process_field_filtering_error res fq e h)

/-- Witness for C6's amended claim at the concrete failing input: grouping
`[{id:1}]` by the absent field `v` yields the unclassified `KeyError`. -/
theorem execute_error_classified_witness :
    (∃ m, Err.keyError "v" = .http400 m) ∨
    (∃ fl fq jt ag gs,
      parse_parameters [("_group_by", "v")] = .ok (fl, fq, jt, ag, gs) ∧ ¬gs = [] ∧
      ((∃ g, g ∈ gs ∧ Err.keyError "v" = .keyError g) ∨ Err.keyError "v" = .typeError)) :=
  execute_error_classified qNoV [("_group_by", "v")] (.keyError "v") rfl
